import Mathlib

/-!
Verification development for the chat-ai language-tutor repository.

The embedding covers the conversation/request orchestration and
response-interpretation pipeline:

* `src/app/page.tsx` — the response interpreter: code-fence stripping
  (`content.replace(/```json?\s*|\s*```/g, "").trim()`), the structured
  decoders `parseExplained` / `parseInformal`, and the mode-directed
  rendering choice made by `AssistantMessage`.
* `src/app/api/tutor/route.ts` — the request orchestrator: `systemPrompt`,
  the provider request construction and the `POST` handler.

JavaScript semantics relevant to the pipeline (regex replacement for this
particular pattern, `JSON.parse`, the `String`/`Number`/`Boolean`
coercions on JSON-derived values, `??`, `.trim()`) are embedded
explicitly.  Numbers are modelled as exact rationals (`ℚ`) plus the
distinguished `NaN` / infinity values, not as IEEE doubles: every number
appearing in the claims is a small integer on which the two agree.
-/

/-- Backtick character (code point 96), written via `Char.ofNat`. -/
def btick : Char := Char.ofNat 96

/-- Left curly brace character (code point 123). -/
def lcurly : Char := Char.ofNat 123

/-- Right curly brace character (code point 125). -/
def rcurly : Char := Char.ofNat 125

/-- Characters matched by the JavaScript regex class `\s` (also the set
removed by `String.prototype.trim` and by `Number`'s string trimming):
tab, LF, VT, FF, CR, space, NBSP, and the Unicode space separators,
line/paragraph separators and BOM. -/
def isJsWs (c : Char) : Bool :=
  let n := c.toNat
  n == 9 || n == 10 || n == 11 || n == 12 || n == 13 || n == 32 ||
  n == 160 || n == 0x1680 || (0x2000 ≤ n && n ≤ 0x200A) ||
  n == 0x2028 || n == 0x2029 || n == 0x202F || n == 0x205F ||
  n == 0x3000 || n == 0xFEFF

/-- Whitespace accepted by `JSON.parse` between tokens: tab, LF, CR, space. -/
def isJsonWs (c : Char) : Bool :=
  let n := c.toNat
  n == 9 || n == 10 || n == 13 || n == 32

/-- Test whether the text starts with three backticks followed by `jso`
(the mandatory part of the regex alternative `` ```json? ``). -/
def fenceHeadJso (l : List Char) : Bool :=
  match l with
  | a :: b :: c :: 'j' :: 's' :: 'o' :: _ =>
    a == btick && b == btick && c == btick
  | _ => false

/-- Test whether the text starts with three backticks. -/
def fenceHeadTicks (l : List Char) : Bool :=
  match l with
  | a :: b :: c :: _ => a == btick && b == btick && c == btick
  | _ => false

/-- Remainder after the regex alternative `` ```json?\s* `` matched at the
head: drop the six mandatory characters, the optional `n` (greedy), then
the greedy `\s*`. -/
def afterJsoOpen (l : List Char) : List Char :=
  let r := l.drop 6
  let r2 := match r with
    | 'n' :: t => t
    | _ => r
  r2.dropWhile isJsWs

/-- One match attempt of the regex `` /```json?\s*|\s*```/ `` at the head
of the text, returning the remainder after the match.  The first
alternative is tried first, as the JavaScript engine does; in the second
alternative the greedy `\s*` can only be followed by a backtick when it
has consumed the entire whitespace run, so no backtracking arises. -/
def fenceMatch (l : List Char) : Option (List Char) :=
  if fenceHeadJso l then some (afterJsoOpen l)
  else if fenceHeadTicks (l.dropWhile isJsWs) then
    some ((l.dropWhile isJsWs).drop 3)
  else none

/-- Global regex replacement with the empty string: scan left to right;
at each position either a match is removed and scanning resumes after it,
or one character is emitted.  The fuel decreases once per step while each
step consumes at least one character, so fuel = input length suffices. -/
def stripLoop : Nat → List Char → List Char
  | 0, l => l
  | _ + 1, [] => []
  | fuel + 1, c :: cs =>
    match fenceMatch (c :: cs) with
    | some rest => stripLoop fuel rest
    | none => c :: stripLoop fuel cs

/-- Character-list form of `String.prototype.trim`. -/
def jsTrimList (l : List Char) : List Char :=
  List.rdropWhile isJsWs (l.dropWhile isJsWs)

/-- The JavaScript `String.prototype.trim`. -/
def jsTrimStr (s : String) : String := String.mk (jsTrimList s.data)

/-- Embedding of `content.replace(/```json?\s*|\s*```/g, "").trim()`, the
code-fence stripping shared by `parseExplained` and `parseInformal`. -/
def stripFences (s : String) : String :=
  jsTrimStr (String.mk (stripLoop s.data.length s.data))

/-- JSON values as produced by `JSON.parse`: null, booleans, numbers,
strings, arrays, and objects.  Object fields are kept in source order,
duplicates included; property lookup takes the last binding, as
`JSON.parse` does.  Number values are exact rationals. -/
inductive Json where
  | null
  | bool (b : Bool)
  | num (q : ℚ)
  | str (s : String)
  | arr (elems : List Json)
  | obj (fields : List (String × Json))

/-- Numeric value of a decimal digit character, if it is one. -/
def digitVal (c : Char) : Option Nat :=
  if 48 ≤ c.toNat && c.toNat ≤ 57 then some (c.toNat - 48) else none

/-- Numeric value of a hexadecimal digit character, if it is one. -/
def hexVal (c : Char) : Option Nat :=
  if 48 ≤ c.toNat && c.toNat ≤ 57 then some (c.toNat - 48)
  else if 97 ≤ c.toNat && c.toNat ≤ 102 then some (c.toNat - 87)
  else if 65 ≤ c.toNat && c.toNat ≤ 70 then some (c.toNat - 55)
  else none

/-- Longest leading run of decimal digits, as digit values, with the rest. -/
def takeDigits : List Char → List Nat × List Char
  | [] => ([], [])
  | c :: cs =>
    match digitVal c with
    | some d =>
      let (ds, rest) := takeDigits cs
      (d :: ds, rest)
    | none => ([], c :: cs)

/-- Value of a list of decimal digit values read most-significant first. -/
def digitsToNat (ds : List Nat) : Nat := ds.foldl (fun a d => a * 10 + d) 0

/-- Body of a JSON string literal after the opening quote: returns the
decoded characters and the text after the closing quote.  Raw control
characters are rejected, escape sequences are decoded, and `\uXXXX`
surrogate pairs are combined; a lone surrogate (representable in a
JavaScript string but not as a Unicode scalar) is modelled as U+FFFD. -/
def parseJStrBody : Nat → List Char → Option (List Char × List Char)
  | 0, _ => none
  | _ + 1, [] => none
  | fuel + 1, c :: cs =>
    if c == '\"' then some ([], cs)
    else if c == '\\' then
      match cs with
      | [] => none
      | e :: cs2 =>
        if e == '\"' || e == '\\' || e == '/' then
          (parseJStrBody fuel cs2).map (fun p => (e :: p.1, p.2))
        else if e == 'b' then
          (parseJStrBody fuel cs2).map (fun p => (Char.ofNat 8 :: p.1, p.2))
        else if e == 'f' then
          (parseJStrBody fuel cs2).map (fun p => (Char.ofNat 12 :: p.1, p.2))
        else if e == 'n' then
          (parseJStrBody fuel cs2).map (fun p => ('\n' :: p.1, p.2))
        else if e == 'r' then
          (parseJStrBody fuel cs2).map (fun p => (Char.ofNat 13 :: p.1, p.2))
        else if e == 't' then
          (parseJStrBody fuel cs2).map (fun p => ('\t' :: p.1, p.2))
        else if e == 'u' then
          match cs2 with
          | h1 :: h2 :: h3 :: h4 :: cs3 =>
            match hexVal h1, hexVal h2, hexVal h3, hexVal h4 with
            | some a, some b, some c, some d =>
              let u := ((a * 16 + b) * 16 + c) * 16 + d
              if 0xD800 ≤ u && u ≤ 0xDBFF then
                match cs3 with
                | '\\' :: 'u' :: g1 :: g2 :: g3 :: g4 :: cs4 =>
                  match hexVal g1, hexVal g2, hexVal g3, hexVal g4 with
                  | some a2, some b2, some c2, some d2 =>
                    let u2 := ((a2 * 16 + b2) * 16 + c2) * 16 + d2
                    if 0xDC00 ≤ u2 && u2 ≤ 0xDFFF then
                      let cp := 0x10000 + (u - 0xD800) * 0x400 + (u2 - 0xDC00)
                      (parseJStrBody fuel cs4).map
                        (fun p => (Char.ofNat cp :: p.1, p.2))
                    else
                      (parseJStrBody fuel cs3).map
                        (fun p => (Char.ofNat 0xFFFD :: p.1, p.2))
                  | _, _, _, _ =>
                    (parseJStrBody fuel cs3).map
                      (fun p => (Char.ofNat 0xFFFD :: p.1, p.2))
                | _ =>
                  (parseJStrBody fuel cs3).map
                    (fun p => (Char.ofNat 0xFFFD :: p.1, p.2))
              else if 0xDC00 ≤ u && u ≤ 0xDFFF then
                (parseJStrBody fuel cs3).map
                  (fun p => (Char.ofNat 0xFFFD :: p.1, p.2))
              else
                (parseJStrBody fuel cs3).map (fun p => (Char.ofNat u :: p.1, p.2))
            | _, _, _, _ => none
          | _ => none
        else none
    else if c.toNat < 32 then none
    else (parseJStrBody fuel cs).map (fun p => (c :: p.1, p.2))

/-- JSON number literal at the head of the text, per the JSON grammar:
optional minus, an integer part with no leading zeros, an optional
fraction and an optional exponent.  The exact rational value is returned
(IEEE rounding is not modelled). -/
def parseJsonNumber (l : List Char) : Option (ℚ × List Char) :=
  let (sgn, l1) : ℚ × List Char :=
    match l with
    | '-' :: t => (-1, t)
    | _ => (1, l)
  match takeDigits l1 with
  | ([], _) => none
  | (d0 :: ds, rest1) =>
    if d0 == 0 && ds ≠ [] then none
    else
      let intPart : ℚ := (digitsToNat (d0 :: ds) : ℚ)
      let (fracPart, rest2) : ℚ × List Char :=
        match rest1 with
        | '.' :: t =>
          match takeDigits t with
          | ([], _) => (0, rest1)
          | (fs, r) => ((digitsToNat fs : ℚ) / ((10 : ℚ) ^ fs.length), r)
        | _ => (0, rest1)
      let fracOk : Bool :=
        match rest1 with
        | '.' :: t => !(takeDigits t).1.isEmpty
        | _ => true
      if !fracOk then none
      else
        let expRead : Option (ℤ × List Char) :=
          match rest2 with
          | e :: t =>
            if e == 'e' || e == 'E' then
              let (esgn, t2) : ℤ × List Char :=
                match t with
                | '+' :: t3 => (1, t3)
                | '-' :: t3 => (-1, t3)
                | _ => (1, t)
              match takeDigits t2 with
              | ([], _) => none
              | (es, r) => some (esgn * (digitsToNat es : ℤ), r)
            else some (0, rest2)
          | [] => some (0, rest2)
        match expRead with
        | none => none
        | some (ex, rest3) =>
          some (sgn * (intPart + fracPart) * (10 : ℚ) ^ ex, rest3)

mutual

/-- JSON value at the head of the text (leading whitespace allowed),
returning the value and the remaining text.  Fuel decreases on each
nested call; every nested call consumes at least one character first, so
fuel = input length + 1 suffices. -/
def parseVal : Nat → List Char → Option (Json × List Char)
  | 0, _ => none
  | fuel + 1, l =>
    match l.dropWhile isJsonWs with
    | 'n' :: 'u' :: 'l' :: 'l' :: rest => some (Json.null, rest)
    | 't' :: 'r' :: 'u' :: 'e' :: rest => some (Json.bool true, rest)
    | 'f' :: 'a' :: 'l' :: 's' :: 'e' :: rest => some (Json.bool false, rest)
    | c :: cs =>
      if c == '\"' then
        (parseJStrBody (fuel + 1) cs).map
          (fun p => (Json.str (String.mk p.1), p.2))
      else if c == lcurly then
        match cs.dropWhile isJsonWs with
        | d :: ds =>
          if d == rcurly then some (Json.obj [], ds)
          else
            (parseMembers fuel (d :: ds)).map
              (fun p => (Json.obj p.1, p.2))
        | [] => none
      else if c == '[' then
        match cs.dropWhile isJsonWs with
        | ']' :: ds => some (Json.arr [], ds)
        | d :: ds =>
          (parseElems fuel (d :: ds)).map (fun p => (Json.arr p.1, p.2))
        | [] => none
      else
        (parseJsonNumber (c :: cs)).map (fun p => (Json.num p.1, p.2))
    | [] => none

/-- Nonempty member list of a JSON object, up to and including the
closing brace. -/
def parseMembers : Nat → List Char → Option (List (String × Json) × List Char)
  | 0, _ => none
  | fuel + 1, l =>
    match l.dropWhile isJsonWs with
    | c :: cs =>
      if c == '\"' then
        match parseJStrBody (fuel + 1) cs with
        | none => none
        | some (kchars, rest) =>
          match rest.dropWhile isJsonWs with
          | ':' :: rest2 =>
            match parseVal fuel rest2 with
            | none => none
            | some (v, rest3) =>
              match rest3.dropWhile isJsonWs with
              | ',' :: rest4 =>
                (parseMembers fuel rest4).map
                  (fun p => ((String.mk kchars, v) :: p.1, p.2))
              | d :: rest4 =>
                if d == rcurly then some ([(String.mk kchars, v)], rest4)
                else none
              | [] => none
          | _ => none
      else none
    | [] => none

/-- Nonempty element list of a JSON array, up to and including the
closing bracket. -/
def parseElems : Nat → List Char → Option (List Json × List Char)
  | 0, _ => none
  | fuel + 1, l =>
    match parseVal fuel l with
    | none => none
    | some (v, rest) =>
      match rest.dropWhile isJsonWs with
      | ',' :: rest2 =>
        (parseElems fuel rest2).map (fun p => (v :: p.1, p.2))
      | ']' :: rest2 => some ([v], rest2)
      | _ => none

end

/-- Embedding of `JSON.parse`: parse one JSON value and require that only
whitespace remains; any violation of the grammar is the thrown-exception
outcome, modelled as `none`. -/
def jsonParse (s : String) : Option Json :=
  match parseVal (s.data.length + 1) s.data with
  | some (j, rest) => if (rest.dropWhile isJsonWs).isEmpty then some j else none
  | none => none

/-- Decimal digit character for a value below ten. -/
def digitChar (n : Nat) : Char := Char.ofNat (48 + n)

/-- Decimal expansion of a proper fraction r/d, one digit per fuel unit,
stopping at remainder zero.  Exact whenever the expansion terminates. -/
def fracDigits : Nat → Nat → Nat → List Char
  | 0, _, _ => []
  | fuel + 1, r, d =>
    if r == 0 then []
    else digitChar (r * 10 / d) :: fracDigits fuel (r * 10 % d) d

/-- JavaScript `ToString` on a number value, idealized over exact
rationals: exact for integers and for terminating decimal expansions
(the only number values the pipeline's claims exercise); non-terminating
expansions are cut at 1200 digits and the exponential-notation thresholds
and IEEE shortest-roundtrip rounding of the engine are not modelled. -/
def jsNumToString (q : ℚ) : String :=
  let sign := if q.num < 0 then "-" else ""
  let n := q.num.natAbs
  if q.den == 1 then sign ++ toString n
  else
    sign ++ toString (n / q.den) ++ "." ++
      String.mk (fracDigits 1200 (n % q.den) q.den)

mutual

/-- JavaScript `ToString` on a JSON-derived value: `String(v)`.
Arrays stringify as their elements joined with commas (null elements
become the empty string); plain objects stringify as
`[object Object]`. -/
def jsToString : Json → String
  | .null => "null"
  | .bool true => "true"
  | .bool false => "false"
  | .num q => jsNumToString q
  | .str s => s
  | .arr xs => String.intercalate "," (jsToStringElems xs)
  | .obj _ => "[object Object]"

/-- Stringification of array elements for the comma join. -/
def jsToStringElems : List Json → List String
  | [] => []
  | x :: xs =>
    (match x with
     | .null => ""
     | y => jsToString y) :: jsToStringElems xs

end

/-- JavaScript number values: an exact rational, an infinity, or NaN
(IEEE rounding and negative zero are not modelled; no claim exercises
them). -/
inductive JsNum where
  | nan
  | posInf
  | negInf
  | val (q : ℚ)
deriving DecidableEq

/-- Leading run of decimal digit values with the remaining text; `none`
when there is no leading digit. -/
def readDigits1 (l : List Char) : Option (Nat × List Char) :=
  match takeDigits l with
  | ([], _) => none
  | (ds, rest) => some (digitsToNat ds, rest)

/-- Decimal literal of the `StringNumericLiteral` grammar (digits with
optional fraction and exponent, or a fraction alone), at the head of the
text. Unlike JSON, leading zeros, a trailing dot, and a leading dot are
allowed. -/
def readDecLit (l : List Char) : Option (ℚ × List Char) :=
  match l with
  | '.' :: t =>
    match takeDigits t with
    | ([], _) => none
    | (fs, r) => some ((digitsToNat fs : ℚ) / (10 : ℚ) ^ fs.length, r)
  | _ =>
    match takeDigits l with
    | ([], _) => none
    | (ds, rest) =>
      match rest with
      | '.' :: t =>
        match takeDigits t with
        | ([], _) => some ((digitsToNat ds : ℚ), t)
        | (fs, r) =>
          some ((digitsToNat ds : ℚ) +
            (digitsToNat fs : ℚ) / (10 : ℚ) ^ fs.length, r)
      | _ => some ((digitsToNat ds : ℚ), rest)

/-- Optional exponent part `[eE][+-]?digits` after a decimal literal. -/
def readExpPart (l : List Char) : Option (ℤ × List Char) :=
  match l with
  | e :: t =>
    if e == 'e' || e == 'E' then
      match t with
      | '+' :: t2 =>
        (readDigits1 t2).map (fun p => ((p.1 : ℤ), p.2))
      | '-' :: t2 =>
        (readDigits1 t2).map (fun p => (-(p.1 : ℤ), p.2))
      | _ =>
        (readDigits1 t).map (fun p => ((p.1 : ℤ), p.2))
    else some (0, l)
  | [] => some (0, l)

/-- Digits of a base-b unsigned integer literal, for the hex, octal and
binary forms of `Number`'s string grammar. -/
def readRadixDigits (b : Nat) (l : List Char) : Option Nat :=
  match l with
  | [] => none
  | _ =>
    let step : Option Nat → Char → Option Nat := fun acc c =>
      match acc, hexVal c with
      | some a, some v => if v < b then some (a * b + v) else none
      | _, _ => none
    l.foldl step (some 0)

/-- JavaScript `StringToNumber`: trim whitespace; empty means zero; then
either a signed decimal literal (optionally `Infinity`) or an unsigned
`0x`/`0o`/`0b` literal; anything else is NaN.  The whole string must be
consumed. -/
def strToNumber (s : String) : JsNum :=
  match jsTrimList s.data with
  | [] => JsNum.val 0
  | l =>
    let (sgn, body) : ℚ × List Char :=
      match l with
      | '+' :: t => (1, t)
      | '-' :: t => (-1, t)
      | _ => (1, l)
    match body with
    | 'I' :: 'n' :: 'f' :: 'i' :: 'n' :: 'i' :: 't' :: 'y' :: [] =>
      if sgn == 1 then JsNum.posInf else JsNum.negInf
    | '0' :: x :: t =>
      if (x == 'x' || x == 'X') && sgn == 1 && l == body then
        match readRadixDigits 16 t with
        | some n => JsNum.val (n : ℚ)
        | none => JsNum.nan
      else if (x == 'o' || x == 'O') && sgn == 1 && l == body then
        match readRadixDigits 8 t with
        | some n => JsNum.val (n : ℚ)
        | none => JsNum.nan
      else if (x == 'b' || x == 'B') && sgn == 1 && l == body then
        match readRadixDigits 2 t with
        | some n => JsNum.val (n : ℚ)
        | none => JsNum.nan
      else
        match readDecLit body with
        | none => JsNum.nan
        | some (m, rest) =>
          match readExpPart rest with
          | some (ex, []) => JsNum.val (sgn * m * (10 : ℚ) ^ ex)
          | _ => JsNum.nan
    | _ =>
      match readDecLit body with
      | none => JsNum.nan
      | some (m, rest) =>
        match readExpPart rest with
        | some (ex, []) => JsNum.val (sgn * m * (10 : ℚ) ^ ex)
        | _ => JsNum.nan

/-- Lookup of the last binding of a key in an object's field list, the
binding `JSON.parse` leaves in place when keys repeat. -/
def jsGetFields : List (String × Json) → String → Option Json
  | [], _ => none
  | (k', v) :: rest, k =>
    match jsGetFields rest k with
    | some r => some r
    | none => if k' == k then some v else none

/-- Property lookup on a JSON-derived value, as the property accessor
`o[k]` / `o.k`: last binding wins on objects (as `JSON.parse` builds
them); arrays expose their elements under canonical index keys and a
numeric `length`; `none` is the JavaScript `undefined`. -/
def jsGet (o : Json) (k : String) : Option Json :=
  match o with
  | .obj fields => jsGetFields fields k
  | .arr xs =>
    if k == "length" then some (Json.num (xs.length : ℚ))
    else
      match k.toNat? with
      | some i => if toString i == k then xs.get? i else none
      | none => none
  | _ => none

/-- The JavaScript `in` operator on a JSON-derived value, restricted to
own properties (none of the keys this pipeline tests collides with an
`Object.prototype` or `Array.prototype` member, on which `in` would also
answer true). -/
def jsHasKey (o : Json) (k : String) : Bool :=
  match o with
  | .obj fields => fields.any (fun p => p.1 == k)
  | .arr xs =>
    k == "length" ||
      (match k.toNat? with
       | some i => decide (i < xs.length) && toString i == k
       | none => false)
  | _ => false

/-- Truthiness test combined with `typeof o === "object"`, the guard
`o && typeof o === "object"` of both decoders: `typeof` answers
`"object"` exactly for null, arrays and objects, and null is falsy, so
the guard holds exactly for arrays and objects. -/
def jsTruthyObject : Json → Bool
  | .arr _ => true
  | .obj _ => true
  | _ => false

/-- JavaScript `ToNumber` on a possibly-absent JSON-derived value:
`Number(x)`.  Arrays and objects convert via their string form
(`ToPrimitive` on them yields it); absent (`undefined`) is NaN. -/
def jsToNumber : Option Json → JsNum
  | none => JsNum.nan
  | some .null => JsNum.val 0
  | some (.bool true) => JsNum.val 1
  | some (.bool false) => JsNum.val 0
  | some (.num q) => JsNum.val q
  | some (.str s) => strToNumber s
  | some (.arr xs) => strToNumber (jsToString (Json.arr xs))
  | some (.obj fs) => strToNumber (jsToString (Json.obj fs))

/-- JavaScript `ToBoolean` on a possibly-absent JSON-derived value:
`Boolean(x)`. -/
def jsToBoolean : Option Json → Bool
  | none => false
  | some .null => false
  | some (.bool b) => b
  | some (.num q) => !(q == 0)
  | some (.str s) => !(s == "")
  | some (.arr _) => true
  | some (.obj _) => true

/-- Embedding of `x ?? ""` applied to a property read: `undefined` and
`null` are replaced by the empty string, everything else passes. -/
def jsOrEmptyStr : Option Json → Json
  | none => Json.str ""
  | some .null => Json.str ""
  | some j => j

/-- Embedding of `x ?? d` where `x` is already a number value: `??`
tests only for `null`/`undefined`, which a number never is, so the
right-hand side is dead and `x` is always returned. -/
def jsNullishNum (x : JsNum) (_d : JsNum) : JsNum := x

/-- The `Explained` record of `page.tsx` (the explain-mode structured
shape). -/
structure Explained where
  corrected : String
  translation : String
  explanation : String
  naturalSuggestion : String
  score : JsNum
deriving DecidableEq

/-- The `InformalResponse` record of `page.tsx` (the informal-mode
structured shape). -/
structure InformalResponse where
  informal : String
  alreadyCorrect : Bool
  translation : String
deriving DecidableEq

/-- Keys whose presence `parseExplained` tests (`"corrected" in o && ...`);
the source checks these four and does not test `translation`. -/
def explainedCheckedKeys : List String :=
  ["corrected", "explanation", "naturalSuggestion", "score"]

/-- Keys whose presence `parseInformal` tests. -/
def informalCheckedKeys : List String :=
  ["informal", "alreadyCorrect", "translation"]

/-- Guard-and-coerce part of `parseExplained`, applied to the value
`JSON.parse` produced: the truthy-object guard, the four key-presence
tests, and on success the field coercions
`String((o as Explained).f ?? "")` and
`Number((o as Explained).score) ?? 0`. -/
def parseExplainedObj (o : Json) : Option Explained :=
  if jsTruthyObject o && jsHasKey o "corrected" && jsHasKey o "explanation"
      && jsHasKey o "naturalSuggestion" && jsHasKey o "score" then
    some
      { corrected := jsToString (jsOrEmptyStr (jsGet o "corrected"))
        translation := jsToString (jsOrEmptyStr (jsGet o "translation"))
        explanation := jsToString (jsOrEmptyStr (jsGet o "explanation"))
        naturalSuggestion := jsToString (jsOrEmptyStr (jsGet o "naturalSuggestion"))
        score := jsNullishNum (jsToNumber (jsGet o "score")) (JsNum.val 0) }
  else none

/-- Embedding of `parseExplained`: strip code fences, `JSON.parse` inside
`try` (a throw is the `none` outcome), then guard and coerce. -/
def parseExplained (content : String) : Option Explained :=
  match jsonParse (stripFences content) with
  | none => none
  | some o => parseExplainedObj o

/-- Guard-and-coerce part of `parseInformal`: the truthy-object guard,
the three key-presence tests, and on success the coercions, including
`Boolean((o as InformalResponse).alreadyCorrect)` with no `??`. -/
def parseInformalObj (o : Json) : Option InformalResponse :=
  if jsTruthyObject o && jsHasKey o "informal" && jsHasKey o "alreadyCorrect"
      && jsHasKey o "translation" then
    some
      { informal := jsToString (jsOrEmptyStr (jsGet o "informal"))
        alreadyCorrect := jsToBoolean (jsGet o "alreadyCorrect")
        translation := jsToString (jsOrEmptyStr (jsGet o "translation")) }
  else none

/-- Embedding of `parseInformal`. -/
def parseInformal (content : String) : Option InformalResponse :=
  match jsonParse (stripFences content) with
  | none => none
  | some o => parseInformalObj o

/-- The `TutorLanguage` union type of `types/tutor`. -/
inductive TutorLanguage where
  | en
  | de
deriving DecidableEq

/-- The `TutorMode` union type of `types/tutor`. -/
inductive TutorMode where
  | translate
  | explain
  | correct
  | informal
deriving DecidableEq

/-- Outcome of `AssistantMessage`'s interpretation of a provider text:
the structured explain view, the structured informal view, or the raw
text rendered verbatim. -/
inductive Rendered where
  | explainView (e : Explained)
  | informalView (i : InformalResponse)
  | rawView (content : String)
deriving DecidableEq

/-- Embedding of `AssistantMessage`'s decode-and-choose logic: the
explain decoder runs only in explain mode, the informal decoder only in
informal mode, and whenever no structured decode is available the raw
`content` is rendered verbatim. -/
def renderAssistant (mode : TutorMode) (content : String) : Rendered :=
  match mode with
  | .explain =>
    match parseExplained content with
    | some e => Rendered.explainView e
    | none => Rendered.rawView content
  | .informal =>
    match parseInformal content with
    | some i => Rendered.informalView i
    | none => Rendered.rawView content
  | .translate => Rendered.rawView content
  | .correct => Rendered.rawView content

/-- Message roles of the chat-completion interface. -/
inductive Role where
  | system
  | user
  | assistant
deriving DecidableEq

/-- One chat message as sent to the provider. -/
structure ChatMessage where
  role : Role
  content : String
deriving DecidableEq

/-- The fixed model identifier `GROQ_MODEL` of `route.ts`. -/
def GROQ_MODEL : String := "llama-3.1-8b-instant"

/-- Embedding of `systemPrompt` from `route.ts`: the Mode Policy mapping
from target language and mode to the directive text, with the
`langName` / `targetLang` interpolations expanded. -/
def systemPrompt (lang : TutorLanguage) (mode : TutorMode) : String :=
  let langName := if lang == TutorLanguage.en then "inglês" else "alemão"
  let targetLang := if lang == TutorLanguage.en then "English" else "German"
  match mode with
  | .translate =>
    "You are a translator. The user will write in any language (often Portuguese). Your ONLY task is to respond with the translation into " ++
    targetLang ++ ". Do not correct, explain, or add anything. Just the translation."
  | .explain =>
    "You are a friendly " ++ langName ++
    " language tutor. The user may write in Portuguese or " ++ targetLang ++
    ".\nFor each message you must respond with a JSON object (no markdown, no extra text) with exactly these keys:\n- \"corrected\": string - the corrected version of what they wrote (in " ++
    targetLang ++
    ")\n- \"translation\": string - if they wrote in Portuguese, the translation to " ++
    targetLang ++
    "; otherwise empty string\n- \"explanation\": string - brief explanation of what was wrong and why (in Portuguese)\n- \"naturalSuggestion\": string - a more natural or idiomatic version of the phrase in " ++
    targetLang ++
    "\n- \"score\": number - a grade from 0 to 10 for their attempt\n\nExample format: \x7b\"corrected\":\"...\",\"translation\":\"...\",\"explanation\":\"...\",\"naturalSuggestion\":\"...\",\"score\":7\x7d"
  | .correct =>
    "The user will write in English. Your ONLY task is to respond with the corrected English text. Do not explain, translate, or add anything. Just the corrected sentence."
  | .informal =>
    "The user will send you phrases in English. Your tasks:\n1. Rewrite the phrase in the most informal, casual, day-to-day English possible. Use contractions, slang, and natural spoken English. If the phrase is already correct and casual, keep it as is.\n2. If the original phrase was already correct and natural, set \"alreadyCorrect\" to true; otherwise false.\n3. Provide the translation to Portuguese (Brazil).\n\nRespond with a JSON object only (no markdown, no extra text), with exactly these keys:\n- \"informal\": string - the phrase in casual/informal English\n- \"alreadyCorrect\": boolean - true if the original was already correct and casual\n- \"translation\": string - translation to Portuguese (Brazil)\n\nExample: \x7b\"informal\":\"Yeah, that\x27s totally fine by me.\",\"alreadyCorrect\":false,\"translation\":\"Sim, pra mim tá tranquilo.\"\x7d"

/-- A chat-completion request as `route.ts` builds it: model identifier,
message list, and sampling temperature. -/
structure CompletionRequest where
  model : String
  messages : List ChatMessage
  temperature : ℚ
deriving DecidableEq

/-- Provider message payload; `content` is nullable in the completion
interface. -/
structure ProviderMessage where
  content : Option String
deriving DecidableEq

/-- One completion choice; the `?.` chain treats `message` as possibly
absent. -/
structure Choice where
  message : Option ProviderMessage
deriving DecidableEq

/-- A provider completion response: a list of choices. -/
structure Completion where
  choices : List Choice
deriving DecidableEq

/-- The request body `POST` destructures: `{ language, mode, messages }`. -/
structure TutorBody where
  language : TutorLanguage
  mode : TutorMode
  messages : List ChatMessage

/-- Embedding of the `chatMessages` construction: the system directive
prepended to the inbound history, each turn copied as
`{ role: m.role, content: m.content }`. -/
def buildChatMessages (body : TutorBody) : List ChatMessage :=
  { role := Role.system, content := systemPrompt body.language body.mode } ::
    body.messages.map (fun m => { role := m.role, content := m.content })

/-- The provider request `POST` dispatches. -/
def buildRequest (body : TutorBody) : CompletionRequest :=
  { model := GROQ_MODEL
    messages := buildChatMessages body
    temperature := (3 : ℚ) / 10 }

/-- Embedding of
`completion.choices[0]?.message?.content?.trim() ?? ""`: any absent link
of the optional chain yields `undefined`, which `?? ""` turns into the
empty string; present content is trimmed and (being a string) passes
`??` unchanged. -/
def extractContent (c : Completion) : String :=
  match c.choices.head? with
  | none => ""
  | some ch =>
    match ch.message with
    | none => ""
    | some m =>
      match m.content with
      | none => ""
      | some s => jsTrimStr s

/-- Result of the `POST` route handler: a JSON `{ content }` reply or a
status-500 `{ error }` reply. -/
inductive ApiResponse where
  | ok (content : String)
  | err (status : Nat) (message : String)
deriving DecidableEq

/-- Embedding of the `POST` handler, instrumented with the list of
provider calls it dispatches.  The environment credential is passed as
an `Option`; the provider is a function from request to either a
transport/provider failure message (a thrown error's message) or a
completion.  `getGroq` throws before any provider call when the key is
absent, and the single `catch` turns any thrown error into a status-500
response carrying the error's message. -/
def POSTtrace (env : Option String) (body : TutorBody)
    (provider : CompletionRequest → Except String Completion) :
    ApiResponse × List CompletionRequest :=
  match env with
  | none => (ApiResponse.err 500 "GROQ_API_KEY não configurada.", [])
  | some _ =>
    let req := buildRequest body
    match provider req with
    | .error msg => (ApiResponse.err 500 msg, [req])
    | .ok comp => (ApiResponse.ok (extractContent comp), [req])

/-- A successful fence match leaves a suffix of the text. -/
theorem fenceMatch_suffix {l r : List Char} (h : fenceMatch l = some r) :
    r <:+ l := by
  unfold fenceMatch at h
  split at h
  · -- first alternative
    cases h
    unfold afterJsoOpen
    have h6 : l.drop 6 <:+ l := List.drop_suffix 6 l
    refine (List.dropWhile_suffix isJsWs).trans ?_
    split
    next t heq =>
      exact (List.IsSuffix.trans (heq ▸ List.suffix_cons 'n' t) h6)
    next => exact h6
  · -- second alternative
    split at h
    · cases h
      exact ((List.drop_suffix 3 _).trans (List.dropWhile_suffix isJsWs))
    · exact absurd h (by simp)

/-- The replacement scan only deletes characters: its output is a
sublist of its input, for any fuel. -/
theorem stripLoop_sublist (fuel : Nat) (l : List Char) :
    List.Sublist (stripLoop fuel l) l := by
  induction fuel generalizing l with
  | zero => exact List.Sublist.refl l
  | succ n ih =>
    cases l with
    | nil => simp [stripLoop]
    | cons c cs =>
      rw [stripLoop]
      cases hm : fenceMatch (c :: cs) with
      | some rest =>
        exact (ih rest).trans (fenceMatch_suffix hm).sublist
      | none => exact (ih cs).cons₂ c

/-- Trimming only deletes characters. -/
theorem jsTrimList_sublist (l : List Char) :
    List.Sublist (jsTrimList l) l := by
  unfold jsTrimList
  exact ((List.rdropWhile_prefix isJsWs _).sublist.trans
    (List.dropWhile_suffix isJsWs).sublist)

/-- The whole strip operation only deletes characters. -/
theorem stripFences_sublist (s : String) :
    List.Sublist (stripFences s).data s.data := by
  unfold stripFences jsTrimStr
  exact (jsTrimList_sublist _).trans (stripLoop_sublist s.data.length s.data)

/-- A text with no backtick cannot start with three backticks. -/
theorem fenceHeadTicks_eq_false {l : List Char} (h : ∀ c ∈ l, c ≠ btick) :
    fenceHeadTicks l = false := by
  unfold fenceHeadTicks
  split
  next a b c rest =>
    have ha : a ≠ btick := h a (by simp)
    simp [ha]
  next => rfl

/-- A text with no backtick cannot start a `` ```json `` fence. -/
theorem fenceHeadJso_eq_false {l : List Char} (h : ∀ c ∈ l, c ≠ btick) :
    fenceHeadJso l = false := by
  unfold fenceHeadJso
  split
  next a b c rest =>
    have ha : a ≠ btick := h a (by simp)
    simp [ha]
  next => rfl

/-- On a text with no backtick the fence regex has no match. -/
theorem fenceMatch_eq_none {l : List Char} (h : ∀ c ∈ l, c ≠ btick) :
    fenceMatch l = none := by
  unfold fenceMatch
  have h2 : ∀ c ∈ l.dropWhile isJsWs, c ≠ btick :=
    fun c hc => h c ((List.dropWhile_suffix isJsWs).sublist.subset hc)
  rw [fenceHeadJso_eq_false h, fenceHeadTicks_eq_false h2]
  rfl

/-- On a text with no backtick the replacement scan is the identity. -/
theorem stripLoop_eq_self {fuel : Nat} {l : List Char}
    (h : ∀ c ∈ l, c ≠ btick) : stripLoop fuel l = l := by
  induction fuel generalizing l with
  | zero => rfl
  | succ n ih =>
    cases l with
    | nil => rfl
    | cons c cs =>
      rw [stripLoop, fenceMatch_eq_none h,
        ih (fun d hd => h d (List.mem_cons_of_mem c hd))]

/-- Trimming is idempotent. -/
theorem jsTrimList_idem (l : List Char) :
    jsTrimList (jsTrimList l) = jsTrimList l := by
  unfold jsTrimList
  have hA : List.dropWhile isJsWs (List.dropWhile isJsWs l) =
      List.dropWhile isJsWs l := List.dropWhile_idempotent isJsWs l
  have hstep : List.dropWhile isJsWs
      (List.rdropWhile isJsWs (List.dropWhile isJsWs l)) =
      List.rdropWhile isJsWs (List.dropWhile isJsWs l) := by
    obtain ⟨t, ht⟩ := List.rdropWhile_prefix isJsWs (List.dropWhile isJsWs l)
    cases hR : List.rdropWhile isJsWs (List.dropWhile isJsWs l) with
    | nil => rfl
    | cons a as =>
      rw [hR] at ht
      have hna : isJsWs a = false := by
        rcases hpa : isJsWs a with _ | _
        · rfl
        · exfalso
          rw [← ht, List.cons_append, List.dropWhile_cons, hpa] at hA
          simp at hA
          have hlen := congrArg List.length hA
          simp at hlen
          have hle : (List.dropWhile isJsWs (as ++ t)).length ≤
              (as ++ t).length :=
            (List.dropWhile_suffix isJsWs).sublist.length_le
          simp at hle
          omega
      rw [List.dropWhile_cons, hna]
      simp
  rw [hstep, List.rdropWhile_idempotent]

/-- On a text with no backtick the strip operation is exactly `trim`. -/
theorem stripFences_eq_trim {s : String} (h : ∀ c ∈ s.data, c ≠ btick) :
    stripFences s = jsTrimStr s := by
  unfold stripFences
  rw [stripLoop_eq_self h]

/-- C8 (amended).  The fence-stripping step only deletes characters: its
output is always a sublist of its input (characters are never altered,
added or reordered).  It does remove leading/trailing fence markers and
surrounding whitespace: a `` ```json `` fence pair around a payload and
plain surrounding whitespace are both removed, as the two concrete
instances show.  (The original claim's restriction to leading/trailing
markers is refuted separately: removal is global.) -/
theorem c8_strip_only_deletes :
    (∀ s : String, List.Sublist (stripFences s).data s.data) ∧
    stripFences "```json\nhello\n```" = "hello" ∧
    stripFences "   hi\n  " = "hi" := by
  refine ⟨fun s => stripFences_sublist s, by decide, by decide⟩

/-- C8 (counterexample).  The claim says characters in the interior that
are not leading/trailing fence markers are left unchanged; but the
replacement is global: in `"a ``` b"` the interior triple-backtick (and
the whitespace the `\s*` consumes with it) is removed even though the
string has no leading or trailing fence marker. -/
theorem c8_counterexample :
    stripFences "a ``` b" = "a b" ∧ "a b" ≠ "a ``` b" ∧
    jsTrimStr "a ``` b" = "a ``` b" := by
  refine ⟨by decide, by decide, by decide⟩

/-- C9 (amended).  Stripping is not idempotent in general (removing a
match can splice the surrounding characters into a new fence marker that
only a second pass removes); on any input containing no backtick the
strip operation coincides with whitespace trimming and stripping twice
equals stripping once. -/
theorem c9_strip_idempotent_no_backtick (s : String)
    (h : ∀ c ∈ s.data, c ≠ btick) :
    stripFences (stripFences s) = stripFences s := by
  rw [stripFences_eq_trim h]
  have h2 : ∀ c ∈ (jsTrimStr s).data, c ≠ btick := fun c hc =>
    h c ((jsTrimList_sublist s.data).subset hc)
  rw [stripFences_eq_trim h2]
  unfold jsTrimStr
  rw [show (String.mk (jsTrimList s.data)).data = jsTrimList s.data from rfl,
    jsTrimList_idem]

/-- C9 (witness). -/
theorem c9_strip_idempotent_no_backtick_witness :
    stripFences (stripFences "  abc  ") = stripFences "  abc  " :=
  c9_strip_idempotent_no_backtick "  abc  " (by decide)

/-- C9 (counterexample).  Stripping is not idempotent: in
`` "` `````json rest" `` the first pass removes the match `` " ```" ``,
splicing the leading backtick onto the two that remain into
`` "```json rest" ``, which the second pass reduces to `"rest"`. -/
theorem c9_counterexample :
    stripFences (stripFences "` `````json rest") ≠
      stripFences "` `````json rest" := by
  decide

/-- C2 (amended).  For the RawText modes translate and correct the
interpreter returns the provider text verbatim, for every input: neither
decoder runs and no code-fence stripping (or trimming) is applied in
these modes. -/
theorem c2_rawtext_modes_verbatim (s : String) :
    renderAssistant TutorMode.translate s = Rendered.rawView s ∧
    renderAssistant TutorMode.correct s = Rendered.rawView s :=
  ⟨rfl, rfl⟩

/-- C2 (witness). -/
theorem c2_rawtext_modes_verbatim_witness :
    renderAssistant TutorMode.translate "Guten Tag" =
      Rendered.rawView "Guten Tag" ∧
    renderAssistant TutorMode.correct "Guten Tag" =
      Rendered.rawView "Guten Tag" :=
  c2_rawtext_modes_verbatim "Guten Tag"

/-- C2 (counterexample).  The claim says fence markers are removed in
RawText modes ("stripping is applied defensively even in RawText
modes"); but in translate mode a fenced text is rendered with its fences
intact: the rendered content differs from the stripped text. -/
theorem c2_counterexample :
    renderAssistant TutorMode.translate "```json\nhello\n```" =
      Rendered.rawView "```json\nhello\n```" ∧
    stripFences "```json\nhello\n```" = "hello" ∧
    "```json\nhello\n```" ≠ "hello" := by
  refine ⟨rfl, by decide, by decide⟩

/-- C3 (code evaluated at the failing input).  Numeric coercion of the
score maps the string "7" and the number 7 to 7 as the claim says, but
the non-numeric string "seven" coerces to NaN, not 0: `Number` never
returns null or undefined, so the `?? 0` fallback is dead and NaN is
propagated into the decoded record. -/
theorem c3_score_coercion_nan :
    jsToNumber (some (Json.str "7")) = JsNum.val 7 ∧
    jsToNumber (some (Json.num 7)) = JsNum.val 7 ∧
    jsToNumber (some (Json.str "seven")) = JsNum.nan ∧
    jsNullishNum JsNum.nan (JsNum.val 0) = JsNum.nan ∧
    parseExplained "\x7b\"corrected\":\"a\",\"explanation\":\"b\",\"naturalSuggestion\":\"c\",\"score\":\"seven\"\x7d" =
      some { corrected := "a", translation := "", explanation := "b",
             naturalSuggestion := "c", score := JsNum.nan } := by
  refine ⟨by with_unfolding_all decide, by with_unfolding_all decide,
    by with_unfolding_all decide, rfl, by with_unfolding_all decide⟩

/-- C1 (amended).  The explain decode succeeds exactly when the parsed
value passes the truthy-object guard and carries the four keys the
source tests — corrected, explanation, naturalSuggestion, score; the
translation key is not required (it defaults to the empty string when
absent).  The string-level decoder is the object-level decoder applied
to the `JSON.parse` result, and a well-formed object binding the five
keys to four strings and a number decodes to exactly those field values
type-coerced. -/
theorem c1_explain_required_keys :
    (∀ o : Json, (parseExplainedObj o).isSome = true ↔
      (jsTruthyObject o && jsHasKey o "corrected" && jsHasKey o "explanation"
        && jsHasKey o "naturalSuggestion" && jsHasKey o "score") = true) ∧
    (∀ (s : String) (o : Json), jsonParse (stripFences s) = some o →
      parseExplained s = parseExplainedObj o) ∧
    (∀ c t e ns : String, ∀ q : ℚ,
      parseExplainedObj (Json.obj [("corrected", Json.str c),
        ("translation", Json.str t), ("explanation", Json.str e),
        ("naturalSuggestion", Json.str ns), ("score", Json.num q)]) =
        some { corrected := c, translation := t, explanation := e,
               naturalSuggestion := ns, score := JsNum.val q }) := by
  refine ⟨fun o => ?_, fun s o h => ?_, fun c t e ns q => ?_⟩
  · unfold parseExplainedObj
    split
    next h => simp [h]
    next h => simp [h]
  · unfold parseExplained
    rw [h]
  · with_unfolding_all rfl

/-- C1 (witness). -/
theorem c1_explain_required_keys_witness :
    parseExplained "\x7b\"corrected\":\"a\",\"translation\":\"t\",\"explanation\":\"b\",\"naturalSuggestion\":\"c\",\"score\":5\x7d" =
      parseExplainedObj (Json.obj [("corrected", Json.str "a"),
        ("translation", Json.str "t"), ("explanation", Json.str "b"),
        ("naturalSuggestion", Json.str "c"), ("score", Json.num 5)]) :=
  c1_explain_required_keys.2.1 _ _ (by with_unfolding_all rfl)

/-- C1 (counterexample).  An object omitting the translation key (one of
the claim's five required keys) still decodes: the source never tests
`"translation" in o`, so the decode succeeds with translation coerced to
the empty string, refuting "absence of any one of these keys means the
decode returns no structured shape". -/
theorem c1_counterexample :
    parseExplained "\x7b\"corrected\":\"a\",\"explanation\":\"b\",\"naturalSuggestion\":\"c\",\"score\":5\x7d" =
      some { corrected := "a", translation := "", explanation := "b",
             naturalSuggestion := "c", score := JsNum.val 5 } ∧
    (jsonParse (stripFences "\x7b\"corrected\":\"a\",\"explanation\":\"b\",\"naturalSuggestion\":\"c\",\"score\":5\x7d")).map
        (fun o => jsHasKey o "translation") = some false := by
  exact ⟨by with_unfolding_all decide, by with_unfolding_all decide⟩

/-- C4 (amended).  The structured decode is total (both decoders are
functions into an option type; the JavaScript `try` absorbs the only
throw).  If parsing fails, or the parsed value is not a (truthy) object,
or a key the decoder requires is absent — for the explain shape the four
tested keys corrected, explanation, naturalSuggestion, score; for
informal all three of informal, alreadyCorrect, translation — the
decoder returns `none`, and the caller then renders the raw provider
text verbatim, so a decode failure never surfaces as an error and the
provider output is never discarded. -/
theorem c4_decode_failure_fallback (s : String) :
    (jsonParse (stripFences s) = none →
      parseExplained s = none ∧ parseInformal s = none) ∧
    (∀ o : Json, jsonParse (stripFences s) = some o →
      jsTruthyObject o = false →
      parseExplained s = none ∧ parseInformal s = none) ∧
    (∀ (o : Json) (k : String), jsonParse (stripFences s) = some o →
      k ∈ explainedCheckedKeys → jsHasKey o k = false →
      parseExplained s = none) ∧
    (∀ (o : Json) (k : String), jsonParse (stripFences s) = some o →
      k ∈ informalCheckedKeys → jsHasKey o k = false →
      parseInformal s = none) ∧
    (parseExplained s = none →
      renderAssistant TutorMode.explain s = Rendered.rawView s) ∧
    (parseInformal s = none →
      renderAssistant TutorMode.informal s = Rendered.rawView s) := by
  refine ⟨fun h => ?_, fun o h hobj => ?_, fun o k h hk habs => ?_,
    fun o k h hk habs => ?_, fun h => ?_, fun h => ?_⟩
  · unfold parseExplained parseInformal
    rw [h]
    exact ⟨rfl, rfl⟩
  · unfold parseExplained parseInformal parseExplainedObj parseInformalObj
    rw [h]
    simp [hobj]
  · unfold parseExplained parseExplainedObj
    rw [h]
    simp only [explainedCheckedKeys, List.mem_cons, List.mem_singleton] at hk
    rcases hk with rfl | rfl | rfl | rfl | hk
    · simp [habs]
    · simp [habs]
    · simp [habs]
    · simp [habs]
    · exact absurd hk (List.not_mem_nil k)
  · unfold parseInformal parseInformalObj
    rw [h]
    simp only [informalCheckedKeys, List.mem_cons, List.mem_singleton] at hk
    rcases hk with rfl | rfl | rfl | hk
    · simp [habs]
    · simp [habs]
    · simp [habs]
    · exact absurd hk (List.not_mem_nil k)
  · unfold renderAssistant
    rw [h]
  · unfold renderAssistant
    rw [h]

/-- C4 (witness). -/
theorem c4_decode_failure_fallback_witness :
    parseExplained "not json" = none ∧
    renderAssistant TutorMode.explain "not json" =
      Rendered.rawView "not json" := by
  have h1 := ((c4_decode_failure_fallback "not json").1
    (by with_unfolding_all rfl)).1
  exact ⟨h1, (c4_decode_failure_fallback "not json").2.2.2.2.1 h1⟩

/-- C4 (counterexample).  The claim lists "a required key is absent" as
a sufficient condition for the no-structured-shape result; but an
explain-mode object lacking the required translation key still decodes
to a structured value, because the source tests only four of the five
keys. -/
theorem c4_counterexample :
    (jsonParse (stripFences "\x7b\"corrected\":\"x\",\"explanation\":\"y\",\"naturalSuggestion\":\"z\",\"score\":9\x7d")).map
        (fun o => jsHasKey o "translation") = some false ∧
    parseExplained "\x7b\"corrected\":\"x\",\"explanation\":\"y\",\"naturalSuggestion\":\"z\",\"score\":9\x7d" ≠
      none := by
  exact ⟨by with_unfolding_all decide, by with_unfolding_all decide⟩

/-- C10.  Both decoders test only key presence, never value
well-formedness: an object whose required keys are all present but bound
to JSON null still decodes, each string field coercing to the empty
string (`null ?? ""` is `""`), the score coercing to 0 (`Number(null)`
is 0), and the informal alreadyCorrect coercing to false
(`Boolean(null)` is false). -/
theorem c10_presence_only_null_values (o1 o2 : Json) :
    (jsTruthyObject o1 = true →
     jsHasKey o1 "corrected" = true →
     jsHasKey o1 "explanation" = true →
     jsHasKey o1 "naturalSuggestion" = true →
     jsHasKey o1 "score" = true →
     jsGet o1 "corrected" = some Json.null →
     jsGet o1 "translation" = some Json.null →
     jsGet o1 "explanation" = some Json.null →
     jsGet o1 "naturalSuggestion" = some Json.null →
     jsGet o1 "score" = some Json.null →
     parseExplainedObj o1 =
       some { corrected := "", translation := "", explanation := "",
              naturalSuggestion := "", score := JsNum.val 0 }) ∧
    (jsTruthyObject o2 = true →
     jsHasKey o2 "informal" = true →
     jsHasKey o2 "alreadyCorrect" = true →
     jsHasKey o2 "translation" = true →
     jsGet o2 "informal" = some Json.null →
     jsGet o2 "alreadyCorrect" = some Json.null →
     jsGet o2 "translation" = some Json.null →
     parseInformalObj o2 =
       some { informal := "", alreadyCorrect := false,
              translation := "" }) := by
  constructor
  · intro hobj h1 h2 h3 h4 g1 gt g2 g3 g4
    unfold parseExplainedObj
    rw [hobj, h1, h2, h3, h4]
    simp only [Bool.and_self, if_pos]
    rw [g1, gt, g2, g3, g4]
    rfl
  · intro hobj h1 h2 h3 g1 g2 g3
    unfold parseInformalObj
    rw [hobj, h1, h2, h3]
    simp only [Bool.and_self, if_pos]
    rw [g1, g2, g3]
    rfl

/-- C10 (witness). -/
theorem c10_presence_only_null_values_witness :
    parseExplainedObj (Json.obj [("corrected", Json.null),
      ("translation", Json.null), ("explanation", Json.null),
      ("naturalSuggestion", Json.null), ("score", Json.null)]) =
      some { corrected := "", translation := "", explanation := "",
             naturalSuggestion := "", score := JsNum.val 0 } ∧
    parseInformalObj (Json.obj [("informal", Json.null),
      ("alreadyCorrect", Json.null), ("translation", Json.null)]) =
      some { informal := "", alreadyCorrect := false,
             translation := "" } := by
  have h := c10_presence_only_null_values
    (Json.obj [("corrected", Json.null), ("translation", Json.null),
      ("explanation", Json.null), ("naturalSuggestion", Json.null),
      ("score", Json.null)])
    (Json.obj [("informal", Json.null), ("alreadyCorrect", Json.null),
      ("translation", Json.null)])
  exact ⟨h.1 rfl rfl rfl rfl rfl rfl rfl rfl rfl rfl,
    h.2 rfl rfl rfl rfl rfl rfl rfl⟩

/-- Copying each turn into a fresh `{ role, content }` record changes
nothing. -/
theorem map_turn_copy_id (ms : List ChatMessage) :
    ms.map (fun m => { role := m.role, content := m.content : ChatMessage }) =
      ms := by
  induction ms with
  | nil => rfl
  | cons a t ih => simp [ih]

/-- With the credential present the handler calls the provider exactly
once, on the request it built. -/
theorem POSTtrace_calls_once (key : String) (body : TutorBody)
    (provider : CompletionRequest → Except String Completion) :
    (POSTtrace (some key) body provider).2 = [buildRequest body] := by
  simp only [POSTtrace]
  cases provider (buildRequest body) <;> rfl

/-- C5.  With the credential present, every inbound request produces
exactly one provider call, whose message list is the Mode Policy
directive for the request's language and mode prepended to the history
with no other mutation of any turn, carrying the fixed model identifier
and sampling temperature 0.3. -/
theorem c5_single_provider_call (key : String) (body : TutorBody)
    (provider : CompletionRequest → Except String Completion) :
    (POSTtrace (some key) body provider).2 =
      [{ model := "llama-3.1-8b-instant",
         messages := { role := Role.system,
                       content := systemPrompt body.language body.mode
                       : ChatMessage } :: body.messages,
         temperature := (3 : ℚ) / 10 }] := by
  rw [POSTtrace_calls_once]
  unfold buildRequest buildChatMessages GROQ_MODEL
  rw [map_turn_copy_id]

/-- C6.  When the API key environment credential is absent the handler
fails before any network call: the provider-call trace is empty, the
result does not depend on the provider at all, and the failure is a
single user-facing error string; a transport or provider failure
likewise surfaces as a single error string after exactly one provider
call (no retry). -/
theorem c6_missing_credential (body : TutorBody)
    (p1 p2 : CompletionRequest → Except String Completion) :
    POSTtrace none body p1 =
      (ApiResponse.err 500 "GROQ_API_KEY não configurada.", []) ∧
    POSTtrace none body p1 = POSTtrace none body p2 ∧
    (∀ key msg : String, p1 (buildRequest body) = Except.error msg →
      POSTtrace (some key) body p1 =
        (ApiResponse.err 500 msg, [buildRequest body])) := by
  refine ⟨rfl, rfl, fun key msg h => ?_⟩
  simp only [POSTtrace]
  rw [h]

/-- C6 (witness). -/
theorem c6_missing_credential_witness :
    POSTtrace none
        { language := TutorLanguage.en, mode := TutorMode.translate,
          messages := [] } (fun _ => Except.error "boom") =
      (ApiResponse.err 500 "GROQ_API_KEY não configurada.", []) ∧
    POSTtrace (some "k")
        { language := TutorLanguage.en, mode := TutorMode.translate,
          messages := [] } (fun _ => Except.error "boom") =
      (ApiResponse.err 500 "boom",
        [buildRequest { language := TutorLanguage.en,
                        mode := TutorMode.translate, messages := [] }]) :=
  ⟨(c6_missing_credential _ (fun _ => Except.error "boom")
      (fun _ => Except.error "boom")).1,
   (c6_missing_credential _ (fun _ => Except.error "boom")
      (fun _ => Except.error "boom")).2.2 "k" "boom" rfl⟩

/-- C7.  On provider success the handler replies with the first
completion's text content trimmed of surrounding whitespace; a missing
choice, missing message or null content each yield the empty string,
which is returned as a valid (non-error) result. -/
theorem c7_first_choice_trimmed (key : String) (body : TutorBody)
    (provider : CompletionRequest → Except String Completion)
    (comp : Completion) :
    (provider (buildRequest body) = Except.ok comp →
      (POSTtrace (some key) body provider).1 =
        ApiResponse.ok (extractContent comp)) ∧
    (comp.choices.head? = none → extractContent comp = "") ∧
    (∀ ch : Choice, comp.choices.head? = some ch → ch.message = none →
      extractContent comp = "") ∧
    (∀ (ch : Choice) (m : ProviderMessage), comp.choices.head? = some ch →
      ch.message = some m → m.content = none → extractContent comp = "") ∧
    (∀ (ch : Choice) (m : ProviderMessage) (str : String),
      comp.choices.head? = some ch → ch.message = some m →
      m.content = some str → extractContent comp = jsTrimStr str) := by
  refine ⟨fun h => ?_, fun h => ?_, fun ch h hm => ?_,
    fun ch m h hm hc => ?_, fun ch m str h hm hc => ?_⟩
  · simp only [POSTtrace]
    rw [h]
  · unfold extractContent
    rw [h]
  · unfold extractContent
    rw [h]
    simp [hm]
  · unfold extractContent
    rw [h]
    simp [hm, hc]
  · unfold extractContent
    rw [h]
    simp [hm, hc]

/-- C7 (witness). -/
theorem c7_first_choice_trimmed_witness :
    (POSTtrace (some "k")
        { language := TutorLanguage.en, mode := TutorMode.correct,
          messages := [] }
        (fun _ => Except.ok
          { choices := [{ message := some { content := some "  I went.  " } }] })).1 =
      ApiResponse.ok (extractContent
        { choices := [{ message := some { content := some "  I went.  " } }] }) ∧
    extractContent
        { choices := [{ message := some { content := some "  I went.  " } }] } =
      jsTrimStr "  I went.  " :=
  ⟨(c7_first_choice_trimmed "k"
      { language := TutorLanguage.en, mode := TutorMode.correct,
        messages := [] }
      (fun _ => Except.ok
        { choices := [{ message := some { content := some "  I went.  " } }] })
      { choices := [{ message := some { content := some "  I went.  " } }] }).1
      rfl,
   (c7_first_choice_trimmed "k"
      { language := TutorLanguage.en, mode := TutorMode.correct,
        messages := [] }
      (fun _ => Except.ok
        { choices := [{ message := some { content := some "  I went.  " } }] })
      { choices := [{ message := some { content := some "  I went.  " } }] }).2.2.2.2
      _ _ _ rfl rfl rfl⟩
